import Mathlib

/-!
Verification of the receipt-store core of the firefly-ethconnect repository.

The Go source is embedded shallowly:
* JSON values decoded by `encoding/json` into `map[string]interface{}` become
  `JValue` / `JMap` (an association list with unique keys, as produced by the
  JSON decoder).  JSON numbers are modelled as `Int` (the claims never touch
  numeric JSON semantics).
* External collaborators (auth, persistence tier, smart-contract gateway,
  `time.Parse`) are passed in as explicit parameters, mirroring the Go
  interfaces.
* Stateful code (the reservation set, the in-memory receipt list) is modelled
  by explicit state passing; `log.Panicf` and runtime panics become explicit
  `panicked` outcomes.
-/

/-- A decoded JSON value, as produced by Go `encoding/json` into
`interface{}`.  `null` is Go's nil interface, `obj` is `map[string]interface{}`
(modelled as an association list with unique keys). -/
inductive JValue where
  | null
  | bool (b : Bool)
  | num (n : Int)
  | str (s : String)
  | arr (elems : List JValue)
  | obj (fields : List (String × JValue))
deriving BEq, Repr

/-- Go `map[string]interface{}` holding decoded JSON: association list keyed by
string, with unique keys. -/
abbrev JMap := List (String × JValue)

/-- Go map read `m[k]`: the value stored at `k`, if present. -/
def mapGet (m : JMap) (k : String) : Option JValue :=
  match m.find? (fun p => p.1 = k) with
  | some p => some p.2
  | none => none

/-- Go map write `m[k] = v`: replace the value at `k`, or add the key. -/
def mapSet (m : JMap) (k : String) (v : JValue) : JMap :=
  if m.any (fun p => p.1 = k) then
    m.map (fun p => if p.1 = k then (k, v) else p)
  else
    m ++ [(k, v)]

/-- Modelled from the spec: the reply-type constants of the
`internal/messages` package are not under src/; the spec names the types
`transaction-success`, `transaction-failure`, `transaction-redelivery-prevented`
and `error`.  Only their pairwise distinctness matters to the code. -/
def MsgTypeError : String := "error"

/-- Modelled from the spec: see `MsgTypeError`. -/
def MsgTypeTransactionSuccess : String := "transaction-success"

/-- Modelled from the spec: see `MsgTypeError`. -/
def MsgTypeTransactionFailure : String := "transaction-failure"

/-- Modelled from the spec: see `MsgTypeError`. -/
def MsgTypeTransactionRedeliveryPrevented : String := "transaction-redelivery-prevented"

/-- Modelled from the spec: `errors.Errorf(errors.ResubmissionPreventedCheckTransactionHash).Code()`
from the `internal/errors` package (not under src/): the error code of the
synthetic resubmission-prevented error.  Opaque constant. -/
def resubmissionPreventedCode : String := "ResubmissionPreventedCheckTransactionHash.code"

/-- Modelled from the spec: `errors.Errorf(errors.ResubmissionPreventedCheckTransactionHash).ErrorNoCode()`
from the `internal/errors` package (not under src/): the error text of the
synthetic resubmission-prevented error.  Opaque constant. -/
def resubmissionPreventedMessage : String := "ResubmissionPreventedCheckTransactionHash.message"

/-- Modelled from the spec: `utils.GetMapString` of the `internal/utils`
package is not under src/.  Per the spec it extracts a string field, treating
an absent or non-string value as the empty string (the in-src twin
`kldwebhooks.getString` has the same contract). -/
def GetMapString (m : JMap) (key : String) : String :=
  match mapGet m key with
  | some (.str s) => s
  | _ => ""

/-- Behavior of `utils.GetMapString` applied to a `map` variable that may be Go-nil
(reading from a nil map yields not-present). -/
def GetMapStringOpt (m : Option JMap) (key : String) : String :=
  match m with
  | some mm => GetMapString mm key
  | none => ""

/-- The result of a persistence-tier `GetReceipt(id)` call:
`(receipt|none, err)`.  `Except.error` is a non-nil error. -/
abbrev GetReceiptFn := String → Except Unit (Option JMap)

namespace rest

/-- Model of `receiptStore.extractHeaders` (rest/receiptstore.go): the `headers` field
when present and a JSON object, Go-nil (here `none`) otherwise. -/
def extractHeaders (parsedMsg : JMap) : Option JMap :=
  match mapGet parsedMsg "headers" with
  | some (.obj headers) => some headers
  | _ => none

/-- Error results of `receiptStore.reserveID`. -/
inductive ReserveErr where
  | persistenceErr
  | keyNotUnique
deriving DecidableEq, Repr

/-- Model of `receiptStore.reserveID` (rest/receiptstore.go).  The reservation set
`reservedIDs` is passed and returned explicitly; the second component is the
set after the call (unchanged on every error path). -/
def reserveID (getReceipt : GetReceiptFn) (reservedIDs : List String)
    (msgID : String) : Except ReserveErr Unit × List String :=
  match getReceipt msgID with
  | .error _ => (.error .persistenceErr, reservedIDs)
  | .ok m =>
    if m.isSome || reservedIDs.contains msgID then
      (.error .keyNotUnique, reservedIDs)
    else
      (.ok (), msgID :: reservedIDs)

/-- The release handle returned by a successful `reserveID`: under the same
lock it deletes `msgID` from the then-current reservation set. -/
def releaseID (reservedIDs : List String) (msgID : String) : List String :=
  reservedIDs.filter (fun x => x ≠ msgID)

end rest

/-- Result of a persistence-tier `GetReceipts` call: a non-nil error, a
(possibly empty, never nil) result slice, or a runtime panic inside the
implementation. -/
inductive GetReceiptsResult where
  | err (msg : String)
  | ok (results : List JMap)
  | panicked
deriving BEq, Repr

namespace kldrest

/-- Helper for Go's `for i := 0; i < skip && cur != nil; i++ { cur = cur.Next() }`:
drop `skip` elements (none when `skip ≤ 0`). -/
def dropInt (skip : Int) (l : List JMap) : List JMap :=
  l.drop skip.toNat

/-- Helper for Go's append loop `for i := 0; i < limit && cur != nil; i++`:
take `limit` elements (none when `limit ≤ 0`). -/
def takeInt (limit : Int) (l : List JMap) : List JMap :=
  l.take limit.toNat

/-- Model of `memoryReceipts.GetReceipts` (in src).  The receipt list is newest-first;
the Go code errors on a non-empty `ids` argument, and
`make([]map[string]interface{}, 0, limit)` panics when `limit < 0`. -/
def memGetReceipts (receipts : List JMap) (skip limit : Int)
    (ids : List String) : GetReceiptsResult :=
  if ids.length > 0 then
    .err "Memory receipts do not support id filtering"
  else if limit < 0 then
    .panicked
  else
    .ok (takeInt limit (dropInt skip receipts))

/-- Model of `memoryReceipts.GetReceipt` (in src): linear scan for the first receipt
whose `_id` equals `requestID`; never errors. -/
def memGetReceipt (receipts : List JMap) (requestID : String) : Option JMap :=
  receipts.find? (fun r =>
    match mapGet r "_id" with
    | some v => v == .str requestID
    | none => false)

/-- Model of `memoryReceipts.AddReceipt` (in src): evict the oldest entry when at
`MaxDocs`, then push to the front. -/
def memAddReceipt (maxDocs : Int) (receipts : List JMap) (receipt : JMap) :
    List JMap :=
  let trimmed :=
    if 0 < receipts.length ∧ (receipts.length : Int) ≥ maxDocs then
      receipts.dropLast
    else
      receipts
  receipt :: trimmed

end kldrest

namespace rest

/-- The action `receiptStore.processReply` (rest/receiptstore.go) finishes
with.  `wrote` records the arguments of the `writeReceipt` call (the retry
loop itself is `writeReceipt` below); `panicked` models the nil-interface
dereference `r.persistence.GetReceipt` in the redelivery branch when the
store is disabled; `noStore` is the silently skipped write when
`r.persistence == nil` at the final guard. -/
inductive ReplyAction where
  | droppedBadJSON
  | droppedNoHeaders
  | droppedNoRequestID
  | droppedRedeliveryTerminal
  | panicked
  | noStore
  | wrote (requestID : String) (receipt : JMap) (overwrite : Bool)
deriving BEq, Repr

/-- Outcome of `receiptStore.processReply`: the terminal action plus whether
the smart-contract gateway `PostDeploy` hook was invoked on the way. -/
structure ReplyOutcome where
  action : ReplyAction
  postDeployCalled : Bool
deriving BEq, Repr

/-- Lines 235-242 of `processReply`: stamp `receivedAt` and `_id`, then call
`writeReceipt(requestID, parsedMsg, true)` when a persistence tier is
configured (`requestID` is non-empty on every path that reaches here). -/
def processReplyPersist (persistenceConfigured : Bool) (now : Int)
    (requestID : String) (parsedMsg : JMap) (postDeploy : Bool) : ReplyOutcome :=
  let parsedMsg := mapSet parsedMsg "receivedAt" (.num now)
  let parsedMsg := mapSet parsedMsg "_id" (.str requestID)
  if requestID ≠ "" ∧ persistenceConfigured then
    ⟨.wrote requestID parsedMsg true, postDeploy⟩
  else
    ⟨.noStore, postDeploy⟩

/-- Model of `receiptStore.processReply` (rest/receiptstore.go).  `input` is the result
of `json.Unmarshal` into `map[string]interface{}` (`none`, or a non-object
value, is an unmarshal error); `persistence` is the nil-able persistence
interface; `now` is `time.Now()` in epoch milliseconds. -/
def processReply (persistence : Option GetReceiptFn) (gwConfigured : Bool)
    (now : Int) (input : Option JValue) : ReplyOutcome :=
  match input with
  | some (.obj parsedMsg) =>
    match extractHeaders parsedMsg with
    | none => ⟨.droppedNoHeaders, false⟩
    | some headers =>
      let requestID := GetMapString headers "requestId"
      if requestID = "" then ⟨.droppedNoRequestID, false⟩
      else
        let msgType := GetMapString headers "type"
        let contractAddr := GetMapString parsedMsg "contractAddress"
        let postDeploy :=
          gwConfigured && decide (msgType = MsgTypeTransactionSuccess) &&
            decide (contractAddr ≠ "")
        if msgType = MsgTypeTransactionRedeliveryPrevented then
          match persistence with
          | none => ⟨.panicked, false⟩
          | some getReceipt =>
            let rewrite : JMap :=
              mapSet (mapSet parsedMsg "errorCode" (.str resubmissionPreventedCode))
                "errorMessage" (.str resubmissionPreventedMessage)
            match getReceipt requestID with
            | .ok (some existingReceipt) =>
              let existingHeaders := extractHeaders existingReceipt
              let existingType := GetMapStringOpt existingHeaders "type"
              if existingType = MsgTypeTransactionFailure ∨
                  existingType = MsgTypeTransactionSuccess then
                ⟨.droppedRedeliveryTerminal, false⟩
              else
                processReplyPersist true now requestID rewrite postDeploy
            | _ =>
              processReplyPersist true now requestID rewrite postDeploy
        else
          processReplyPersist persistence.isSome now requestID parsedMsg postDeploy
  | _ => ⟨.droppedBadJSON, false⟩

end rest

namespace kldwebhooks

/-- Model of `getString` (kldwebhooks/replyprocessor.go).  A JSON `null` value decodes
to Go's nil interface, on which `reflect.TypeOf(val).Kind()` dereferences a
nil `reflect.Type` and panics (`Except.error`); any other non-string value
yields the empty string. -/
def getString (genericMap : JMap) (key : String) : Except Unit String :=
  match mapGet genericMap key with
  | some .null => .error ()
  | some (.str s) => .ok s
  | some _ => .ok ""
  | none => .ok ""

/-- The action `WebhooksBridge.processReply` (kldwebhooks/replyprocessor.go)
finishes with. -/
inductive KldReplyAction where
  | droppedBadJSON
  | droppedNoHeaders
  | droppedNoRequestID
  | panicked
  | noStore (requestID : String)
  | inserted (doc : JMap)
deriving BEq, Repr

/-- Model of `WebhooksBridge.processReply` (kldwebhooks/replyprocessor.go).  The guard
`exists && reflect.TypeOf(headers).Kind() == reflect.Map` inspects the freshly
declared local `headers` variable (a nil `map[string]interface{}`), whose
reflected kind is always `reflect.Map`, so the guard reduces to `exists`; the
following unchecked assertion `iHeaders.(map[string]interface{})` panics on
any non-object `headers` value. -/
def processReply (mongoConfigured : Bool) (input : Option JValue) :
    KldReplyAction :=
  match input with
  | some (.obj parsedMsg) =>
    match mapGet parsedMsg "headers" with
    | none => .droppedNoHeaders
    | some (.obj headers) =>
      match getString headers "requestId" with
      | .error _ => .panicked
      | .ok requestId =>
        if requestId = "" then .droppedNoRequestID
        else
          match getString headers "reqOffset" with
          | .error _ => .panicked
          | .ok _ =>
            match getString headers "type" with
            | .error _ => .panicked
            | .ok msgType =>
              match (if msgType = MsgTypeError then
                      getString parsedMsg "errorMessage"
                    else
                      getString parsedMsg "transactionHash") with
              | .error _ => .panicked
              | .ok _ =>
                if mongoConfigured then
                  .inserted (mapSet parsedMsg "_id" (.str requestId))
                else
                  .noStore requestId
    | some _ => .panicked
  | _ => .droppedBadJSON

end kldwebhooks

namespace rest

/-- Constant `defaultReceiptLimit` (rest/receiptstore.go). -/
def defaultReceiptLimit : Int := 10

/-- Constant `defaultRetryTimeout` (rest/receiptstore.go), milliseconds. -/
def defaultRetryTimeout : Int := 120 * 1000

/-- Constant `defaultRetryInitialDelay` (rest/receiptstore.go), milliseconds. -/
def defaultRetryInitialDelay : Int := 500

/-- Constant `defaultMaxDocs` (rest/receiptstore.go). -/
def defaultMaxDocs : Int := 250

/-- The fields of `receipts.ReceiptStoreConf` the embedded code reads. -/
structure ReceiptStoreConf where
  MaxDocs : Int
  QueryLimit : Int
  RetryInitialDelayMS : Int
  RetryTimeoutMS : Int
deriving DecidableEq, Repr

/-- The conf normalization performed by `newReceiptStore`
(rest/receiptstore.go lines 108-116): non-positive values are replaced by the
defaults.  `QueryLimit` is left untouched. -/
def newReceiptStoreConf (conf : ReceiptStoreConf) : ReceiptStoreConf :=
  { conf with
    RetryTimeoutMS :=
      if conf.RetryTimeoutMS ≤ 0 then defaultRetryTimeout else conf.RetryTimeoutMS
    RetryInitialDelayMS :=
      if conf.RetryInitialDelayMS ≤ 0 then defaultRetryInitialDelay
      else conf.RetryInitialDelayMS
    MaxDocs := if conf.MaxDocs ≤ 0 then defaultMaxDocs else conf.MaxDocs }

/-- Go statement `delay = time.Duration(float64(delay) * backoffFactor)` with
`backoffFactor = 1.1`: multiply a nanosecond count by 1.1 and truncate.
Modelled as exact rational multiplication with floor; for delays below 2^52ns
this agrees with the Go float64 computation up to the final nanosecond. -/
def mul11 (d : Nat) : Nat := 11 * d / 10

/-- Go expression `time.Duration(ms) * time.Millisecond` in nanoseconds; a negative count
sleeps for zero time. -/
def msToNs (ms : Int) : Nat := ms.toNat * 1000000

/-- Result of the `writeReceipt` retry loop: success, the error returned on
first failure when `overwriteAndRetry` is false, or the `log.Panicf` abort
when the retry deadline is exhausted. -/
inductive WriteRes where
  | ok
  | err (e : String)
  | panicked
deriving DecidableEq, Repr

/-- The `for` loop of `receiptStore.writeReceipt` (rest/receiptstore.go lines
251-275).  `add n` is the outcome of the n-th `AddReceipt` attempt (`none` =
success).  State mirrors the Go locals: `attempt`, `delay` (ns) and the total
time slept so far (standing in for `time.Since(startTime)`; attempt execution
time is not modelled).  Returns the result together with the list of sleeps
performed, or `none` if the structural fuel runs out (shown impossible for the
fuel used by `writeReceipt`). -/
def writeReceiptLoop (add : Nat → Option String) (overwriteAndRetry : Bool)
    (retryTimeoutNs : Nat) :
    (fuel attempt delay slept : Nat) → Option (WriteRes × List Nat)
  | 0, _, _, _ => none
  | fuel + 1, attempt, delay, slept =>
    -- `if attempt > 0 { time.Sleep(delay); delay = delay * 1.1 }`:
    -- (sleeps performed, new total slept, new delay)
    let step : List Nat × Nat × Nat :=
      if 0 < attempt then ([delay], slept + delay, mul11 delay)
      else ([], slept, delay)
    match add (attempt + 1) with
    | none => some (.ok, step.1)
    | some e =>
      if !overwriteAndRetry then some (.err e, step.1)
      else if retryTimeoutNs < step.2.1 then some (.panicked, step.1)
      else
        match writeReceiptLoop add overwriteAndRetry retryTimeoutNs
            fuel (attempt + 1) step.2.2 step.2.1 with
        | none => none
        | some (res, more) => some (res, step.1 ++ more)

/-- Fuel that suffices for `writeReceiptLoop` whenever the initial delay is at
least one nanosecond (each iteration past the first sleeps at least 1ns, and
the loop aborts once the slept time exceeds the deadline). -/
def writeReceiptFuel (retryTimeoutNs : Nat) : Nat := retryTimeoutNs + 3

/-- Outcome of `receiptStore.writeReceipt`: loop result, the sleeps performed,
and the argument of the `smartContractGW.SendReply` call when one was made
(lines 276-278: only after a successful write, and only when a gateway is
configured). -/
structure WriteReceiptResult where
  res : WriteRes
  sleeps : List Nat
  sentReply : Option JMap
deriving BEq, Repr

/-- Model of `receiptStore.writeReceipt` (rest/receiptstore.go lines 245-280). -/
def writeReceipt (conf : ReceiptStoreConf) (gwConfigured : Bool)
    (add : Nat → Option String) (receipt : JMap) (overwriteAndRetry : Bool) :
    Option WriteReceiptResult :=
  let delay0 := msToNs conf.RetryInitialDelayMS
  let timeoutNs := msToNs conf.RetryTimeoutMS
  match writeReceiptLoop add overwriteAndRetry timeoutNs
      (writeReceiptFuel timeoutNs) 0 delay0 0 with
  | none => none
  | some (res, sleeps) =>
    some ⟨res, sleeps,
      if res = .ok ∧ gwConfigured then some receipt else none⟩

/-- Model of `receiptStore.writeAccepted` (rest/receiptstore.go lines 163-169): stamp
the pending fields and write with `overwrite = false`. -/
def writeAccepted (conf : ReceiptStoreConf) (gwConfigured : Bool)
    (add : Nat → Option String) (now : Int) (msgID msgAck : String)
    (msg : JMap) : Option WriteReceiptResult :=
  let msg := mapSet msg "receivedAt" (.num now)
  let msg := mapSet msg "pending" (.bool true)
  let msg := mapSet msg "msgAck" (.str msgAck)
  let msg := mapSet msg "_id" (.str msgID)
  writeReceipt conf gwConfigured add msg false

/-- The delay slept before re-attempt `i+2` of the retry loop: the configured
initial delay, multiplied by 1.1 for each completed re-attempt. -/
def backoffSeq (conf : ReceiptStoreConf) (i : Nat) : Nat :=
  mul11^[i] (msToNs conf.RetryInitialDelayMS)

end rest

/-- Digits of a base-10 numeral: `none` if empty or any non-digit occurs. -/
def parseDigits (cs : List Char) : Option Nat :=
  if cs = [] then none
  else
    cs.foldl
      (fun acc c =>
        match acc with
        | none => none
        | some n =>
          if c.isDigit then some (n * 10 + (c.toNat - '0'.toNat)) else none)
      (some 0)

/-- Go `strconv.ParseInt(s, 10, bitSize)`: optional sign followed by base-10
digits.  Returns `(value, ok)`; on a syntax error the value is 0 and on a
range error it is the clamped min/max, both with `ok = false`, matching the
Go return convention. -/
def goParseInt (s : String) (bitSize : Nat) : Int × Bool :=
  let cutoff : Int := 2 ^ (bitSize - 1)
  match s.data with
  | [] => (0, false)
  | c :: cs =>
    let signDigits : Bool × List Char :=
      if c = '-' then (true, cs)
      else if c = '+' then (false, cs)
      else (false, c :: cs)
    match parseDigits signDigits.2 with
    | none => (0, false)
    | some n =>
      if signDigits.1 then
        if (n : Int) > cutoff then (-cutoff, false) else (-(n : Int), true)
      else
        if (n : Int) > cutoff - 1 then (cutoff - 1, false) else ((n : Int), true)

/-- Parsed HTTP form/query parameters (`req.Form`): ordered key/value pairs,
with repeated keys allowed. -/
abbrev Form := List (String × String)

/-- Go `req.Form[k]`: all values for `k`, with `ok = false` (here `none`) when
the key is absent (a present key always carries at least one value). -/
def formAll (form : Form) (k : String) : Option (List String) :=
  match (form.filter (fun p => p.1 = k)).map (fun p => p.2) with
  | [] => none
  | vs => some vs

/-- Go `req.FormValue(k)`: the first value for `k`, or the empty string. -/
def formValue (form : Form) (k : String) : String :=
  match formAll form k with
  | some (v :: _) => v
  | _ => ""

namespace rest

/-- The regexp `^[0-9a-zA-Z-]+$` character class (rest/receiptstore.go line 97). -/
def uuidChar (c : Char) : Bool :=
  c.isDigit || ('a' ≤ c && c ≤ 'z') || ('A' ≤ c && c ≤ 'Z') || c = '-'

/-- Go call `uuidCharsVerifier.MatchString`: one or more characters from
`[0-9a-zA-Z-]`, anchored at both ends. -/
def uuidCharsVerifier (s : String) : Bool :=
  decide (s.length > 0) && s.data.all uuidChar

/-- A persistence-tier `GetReceipts(skip, limit, ids, sinceEpochMS, from, to,
start)` call, per the `ReceiptStorePersistence` contract. -/
abbrev GetReceiptsFn :=
  Int → Int → List String → Int → String → String → String → GetReceiptsResult

/-- HTTP outcome of `receiptStore.getReplies`: the status class actually put
on the wire (the first `WriteHeader` wins), with the 400 reason recorded. -/
inductive RepliesResponse where
  | unauthorized                 -- 401
  | disabled                     -- 405
  | badRequest (which : String)  -- 400
  | serverError                  -- 500
  | okList (results : List JMap) -- 200
  | panicked
deriving BEq, Repr

/-- Result of `receiptStore.getReplies`: the response, plus the arguments of
the `persistence.GetReceipts` call when one was made (`none` when the request
was rejected before querying). -/
structure RepliesResult where
  response : RepliesResponse
  query : Option (Int × Int × List String × Int × String × String × String)
deriving BEq, Repr

/-- Model of `receiptStore.getReplies` (rest/receiptstore.go lines 298-388).  `authOk`
is the outcome of the external `auth.AuthListAsyncReplies` collaborator,
`parseRFC3339` is `time.Parse(time.RFC3339Nano, ·)` returning epoch
milliseconds.  Faithful quirks: a supplied limit above `conf.QueryLimit` is
rejected with 400 (no clamping); a non-positive parsed limit silently keeps
the default; a `since` value that parses neither way sends a 400 but then
falls through to the query (the Go code misses a `return` there), so the
persistence call still happens while the 400 response wins the wire. -/
def getReplies (authOk : Bool) (conf : ReceiptStoreConf)
    (persistence : Option GetReceiptsFn) (parseRFC3339 : String → Option Int)
    (form : Form) : RepliesResult :=
  if ¬authOk then ⟨.unauthorized, none⟩ else
  match persistence with
  | none => ⟨.disabled, none⟩
  | some getReceipts =>
    -- Default limit, set to zero when specific IDs are requested
    let idsRes : Except String (Int × List String) :=
      match formAll form "id" with
      | none => .ok (defaultReceiptLimit, [])
      | some ids =>
        if ids.all uuidCharsVerifier then .ok (0, ids)
        else .error "invalidRequestID"
    match idsRes with
    | .error w => ⟨.badRequest w, none⟩
    | .ok (limitDefault, ids) =>
      let limitStr := formValue form "limit"
      let limitRes : Except String Int :=
        if limitStr = "" then .ok limitDefault
        else
          match goParseInt limitStr 32 with
          | (customLimit, true) =>
            if customLimit > conf.QueryLimit then .error "maxLimit"
            else if customLimit > 0 then .ok customLimit
            else .ok limitDefault
          | (_, false) => .error "badLimit"
      match limitRes with
      | .error w => ⟨.badRequest w, none⟩
      | .ok limit =>
        let skipStr := formValue form "skip"
        let skipRes : Except String Int :=
          if skipStr = "" then .ok 0
          else
            match goParseInt skipStr 32 with
            | (skipI64, true) => if skipI64 > 0 then .ok skipI64 else .error "badSkip"
            | (_, false) => .error "badSkip"
        match skipRes with
        | .error w => ⟨.badRequest w, none⟩
        | .ok skip =>
          let since := formValue form "since"
          let sinceRes : Int × Bool :=
            if since = "" then (0, false)
            else
              match parseRFC3339 since with
              | some ms => (ms, false)
              | none =>
                match goParseInt since 64 with
                | (v, true) => (v, false)
                | (v, false) => (v, true)
          let fromStr := formValue form "from"
          let toStr := formValue form "to"
          let startStr := formValue form "start"
          let q := (skip, limit, ids, sinceRes.1, fromStr, toStr, startStr)
          match getReceipts skip limit ids sinceRes.1 fromStr toStr startStr with
          | .panicked => ⟨.panicked, some q⟩
          | .err _ =>
            ⟨if sinceRes.2 then .badRequest "badSince" else .serverError, some q⟩
          | .ok results =>
            ⟨if sinceRes.2 then .badRequest "badSince" else .okList results, some q⟩

/-- HTTP outcome of `receiptStore.getReply`.  `panicked` models the
nil-interface dereference `r.persistence.GetReceipt` when the store is
disabled: this handler has no `persistence == nil` guard (contrast
`getReplies`). -/
inductive ReplyResponse where
  | unauthorized          -- 401
  | serverError           -- 500
  | notFound              -- 404
  | okDoc (result : JMap) -- 200
  | panicked
deriving BEq, Repr

/-- Model of `receiptStore.getReply` (rest/receiptstore.go lines 391-415).
Serialization of the found receipt always succeeds for decoded JSON, so the
`marshalAndReply` 500 branch is unreachable here. -/
def getReply (authOk : Bool) (persistence : Option GetReceiptFn)
    (requestID : String) : ReplyResponse :=
  if ¬authOk then .unauthorized
  else
    match persistence with
    | none => .panicked
    | some getReceipt =>
      match getReceipt requestID with
      | .error _ => .serverError
      | .ok none => .notFound
      | .ok (some result) => .okDoc result

end rest

section MapLemmas

theorem find?_map_hit (m : JMap) (k : String) (v : JValue)
    (h : m.any (fun q => q.1 = k) = true) :
    (m.map (fun q => if q.1 = k then (k, v) else q)).find?
      (fun q => q.1 = k) = some (k, v) := by
  induction m with
  | nil => simp at h
  | cons p m ih =>
    by_cases hp : p.1 = k
    · simp only [List.map_cons, if_pos hp]
      exact List.find?_cons_of_pos _ (by simp)
    · simp only [List.map_cons, if_neg hp]
      rw [List.find?_cons_of_neg _ (by simpa using hp)]
      simp only [List.any_cons, Bool.or_eq_true, decide_eq_true_eq] at h
      exact ih (h.resolve_left hp)

theorem find?_append_miss (m : JMap) (k : String) (v : JValue)
    (h : m.any (fun q => q.1 = k) = false) :
    (m ++ [(k, v)]).find? (fun q => q.1 = k) = some (k, v) := by
  induction m with
  | nil => simp [List.find?]
  | cons p m ih =>
    simp only [List.any_cons, Bool.or_eq_false_iff, decide_eq_false_iff_not] at h
    rw [List.cons_append, List.find?_cons_of_neg _ (by simpa using h.1)]
    exact ih (by simpa using h.2)

theorem find?_map_preserve (m : JMap) (k k' : String) (v : JValue)
    (h : k' ≠ k) :
    (m.map (fun q => if q.1 = k then (k, v) else q)).find?
      (fun q => q.1 = k') = m.find? (fun q => q.1 = k') := by
  induction m with
  | nil => simp
  | cons p m ih =>
    by_cases hp : p.1 = k
    · have hkk' : ¬(k = k') := fun hh => h hh.symm
      have hpk' : ¬(p.1 = k') := by rw [hp]; exact hkk'
      simp only [List.map_cons, if_pos hp]
      rw [List.find?_cons_of_neg _ (by simpa using hkk'),
        List.find?_cons_of_neg _ (by simpa using hpk')]
      exact ih
    · simp only [List.map_cons, if_neg hp]
      by_cases hp' : p.1 = k'
      · rw [List.find?_cons_of_pos _ (by simpa using hp'),
          List.find?_cons_of_pos _ (by simpa using hp')]
      · rw [List.find?_cons_of_neg _ (by simpa using hp'),
          List.find?_cons_of_neg _ (by simpa using hp')]
        exact ih

theorem find?_append_preserve (m : JMap) (k k' : String) (v : JValue)
    (h : k' ≠ k) :
    (m ++ [(k, v)]).find? (fun q => q.1 = k') =
      m.find? (fun q => q.1 = k') := by
  induction m with
  | nil =>
    rw [List.nil_append,
      List.find?_cons_of_neg _ (by simpa using fun hh : k = k' => h hh.symm)]
  | cons p m ih =>
    by_cases hp' : p.1 = k'
    · rw [List.cons_append, List.find?_cons_of_pos _ (by simpa using hp'),
        List.find?_cons_of_pos _ (by simpa using hp')]
    · rw [List.cons_append, List.find?_cons_of_neg _ (by simpa using hp'),
        List.find?_cons_of_neg _ (by simpa using hp')]
      exact ih

/-- Reading back the key just written. -/
theorem mapGet_mapSet_self (m : JMap) (k : String) (v : JValue) :
    mapGet (mapSet m k v) k = some v := by
  unfold mapSet mapGet
  by_cases hma : m.any (fun q => q.1 = k) = true
  · rw [if_pos hma, find?_map_hit m k v hma]
  · rw [if_neg hma, find?_append_miss m k v (Bool.eq_false_iff.mpr hma)]

/-- Writing one key does not disturb another. -/
theorem mapGet_mapSet_ne (m : JMap) (k k' : String) (v : JValue)
    (h : k' ≠ k) : mapGet (mapSet m k v) k' = mapGet m k' := by
  unfold mapSet mapGet
  by_cases hma : m.any (fun q => q.1 = k) = true
  · rw [if_pos hma, find?_map_preserve m k k' v h]
  · rw [if_neg hma, find?_append_preserve m k k' v h]

end MapLemmas

/-- C9: the in-memory `GetReceipts` rejects a non-empty `ids` argument with a
plain error string; with an empty `ids` argument and a non-negative limit it
returns a (possibly empty) result slice and no error.  (The non-negativity
side condition is forced: a negative limit panics in
`make([]map[string]interface{}, 0, limit)`, see the counterexample.) -/
theorem memGetReceipts_ids_contract (receipts : List JMap) (skip limit : Int)
    (ids : List String) :
    (ids ≠ [] → kldrest.memGetReceipts receipts skip limit ids =
      .err "Memory receipts do not support id filtering") ∧
    (ids = [] → 0 ≤ limit →
      ∃ rs, kldrest.memGetReceipts receipts skip limit ids = .ok rs) := by
  constructor
  · intro h
    have hl : ids.length > 0 := List.length_pos.mpr h
    simp [kldrest.memGetReceipts, hl]
  · intro h hle
    subst h
    simp [kldrest.memGetReceipts, not_lt.mpr hle]

/-- C9 witness: concrete instances of both halves of the contract. -/
theorem memGetReceipts_ids_contract_witness :
    kldrest.memGetReceipts [] 0 0 ["a"] =
      .err "Memory receipts do not support id filtering" ∧
    ∃ rs, kldrest.memGetReceipts [] 0 0 [] = .ok rs :=
  ⟨(memGetReceipts_ids_contract [] 0 0 ["a"]).1 (by decide),
   (memGetReceipts_ids_contract [] 0 0 []).2 rfl (by decide)⟩

/-- C9 counterexample: a call with an empty `ids` argument and limit `-1`
panics (negative capacity in `make`) instead of returning a slice with a nil
error, refuting the unrestricted claim. -/
theorem memGetReceipts_negative_limit_panics :
    kldrest.memGetReceipts [] 0 (-1) [] = .panicked := rfl

/-- C2: after a first successful `reserveID(r)` (persistence knows no receipt
for `r` and `r` is unreserved), a second `reserveID(r)` before release fails
with `KeyNotUnique` — whatever the persistence tier now answers for `r`, as
long as it does not itself error — and leaves the reservation set unchanged;
invoking the release handle removes `r`, restoring the original set. -/
theorem reserveID_second_call_conflict (p p2 : GetReceiptFn)
    (s : List String) (r : String) (o : Option JMap)
    (hfree : p r = .ok none) (hnot : r ∉ s) (h2 : p2 r = .ok o) :
    rest.reserveID p s r = (.ok (), r :: s) ∧
    rest.reserveID p2 (r :: s) r = (.error .keyNotUnique, r :: s) ∧
    rest.releaseID (r :: s) r = s := by
  have hc : s.contains r = false := by simpa using hnot
  refine ⟨?_, ?_, ?_⟩
  · simp [rest.reserveID, hfree, hnot]
  · simp [rest.reserveID, h2]
  · unfold rest.releaseID
    rw [List.filter_cons_of_neg (by simp)]
    exact List.filter_eq_self.mpr (fun x hx => by
      simp only [ne_eq, decide_eq_true_eq]
      exact fun hh => hnot (hh ▸ hx))

/-- C2 witness: concrete run of reserve / duplicate-reserve / release. -/
theorem reserveID_second_call_conflict_witness :
    rest.reserveID (fun _ => .ok none) [] "req-2" = (.ok (), ["req-2"]) ∧
    rest.reserveID (fun _ => .ok none) ["req-2"] "req-2" =
      (.error .keyNotUnique, ["req-2"]) ∧
    rest.releaseID ["req-2"] "req-2" = [] :=
  reserveID_second_call_conflict (fun _ => .ok none) (fun _ => .ok none)
    [] "req-2" none rfl (by decide) rfl

/-- C1: for a request whose stored receipt already carries a terminal
`headers.type` (`transaction-failure` or `transaction-success`), processing a
`transaction-redelivery-prevented` reply drops the message (warn-log) and in
particular never reaches a `writeReceipt` call, leaving the stored receipt
unchanged. -/
theorem processReply_redelivery_terminal_drop (p : GetReceiptFn) (gw : Bool)
    (now : Int) (msg headers existing existingHeaders : JMap) (r : String)
    (hhdr : rest.extractHeaders msg = some headers)
    (hrid : GetMapString headers "requestId" = r)
    (hr : r ≠ "")
    (htype : GetMapString headers "type" = MsgTypeTransactionRedeliveryPrevented)
    (hget : p r = .ok (some existing))
    (hexh : rest.extractHeaders existing = some existingHeaders)
    (hterm : GetMapString existingHeaders "type" = MsgTypeTransactionFailure ∨
      GetMapString existingHeaders "type" = MsgTypeTransactionSuccess) :
    rest.processReply (some p) gw now (some (.obj msg)) =
      ⟨.droppedRedeliveryTerminal, false⟩ ∧
    ∀ id rc ow, (rest.processReply (some p) gw now (some (.obj msg))).action ≠
      .wrote id rc ow := by
  have hmain : rest.processReply (some p) gw now (some (.obj msg)) =
      ⟨.droppedRedeliveryTerminal, false⟩ := by
    simp only [rest.processReply]
    rw [hhdr]
    simp only [hrid, htype]
    rw [if_neg hr, if_pos trivial, hget]
    simp only [hexh, GetMapStringOpt]
    rw [if_pos hterm]
  exact ⟨hmain, by rw [hmain]; intro id rc ow; simp⟩

/-- C1 witness: a concrete redelivery-prevented reply for `req-4`, whose
stored receipt is already a success, is dropped. -/
theorem processReply_redelivery_terminal_drop_witness :
    rest.processReply
      (some fun id => if id = "req-4" then
        .ok (some [("headers", .obj [("type", JValue.str "transaction-success")])])
        else .ok none)
      true 1700000000000
      (some (.obj [("headers", .obj [("requestId", JValue.str "req-4"),
        ("type", JValue.str "transaction-redelivery-prevented")]),
        ("transactionHash", JValue.str "0xdead")])) =
      ⟨.droppedRedeliveryTerminal, false⟩ :=
  (processReply_redelivery_terminal_drop
    (fun id => if id = "req-4" then
      .ok (some [("headers", .obj [("type", JValue.str "transaction-success")])])
      else .ok none)
    true 1700000000000
    [("headers", .obj [("requestId", JValue.str "req-4"),
      ("type", JValue.str "transaction-redelivery-prevented")]),
      ("transactionHash", JValue.str "0xdead")]
    [("requestId", JValue.str "req-4"),
      ("type", JValue.str "transaction-redelivery-prevented")]
    [("headers", .obj [("type", JValue.str "transaction-success")])]
    [("type", JValue.str "transaction-success")] "req-4"
    rfl rfl (by decide) rfl rfl rfl (Or.inr rfl)).1

/-- C4: for a `transaction-redelivery-prevented` reply whose stored receipt is
not terminal (absent, fetch error, or a non-terminal type), `processReply`
persists — with overwrite — the reply rewritten as the synthetic
resubmission-prevented error: `errorCode`/`errorMessage` carry the synthetic
error, while the reply's own `transactionHash` field is untouched. -/
theorem processReply_redelivery_pending_rewrite (p : GetReceiptFn) (gw : Bool)
    (now : Int) (msg headers : JMap) (r : String)
    (hhdr : rest.extractHeaders msg = some headers)
    (hrid : GetMapString headers "requestId" = r)
    (hr : r ≠ "")
    (htype : GetMapString headers "type" = MsgTypeTransactionRedeliveryPrevented)
    (hnt : ∀ m, p r = .ok (some m) →
      GetMapStringOpt (rest.extractHeaders m) "type" ≠ MsgTypeTransactionFailure ∧
      GetMapStringOpt (rest.extractHeaders m) "type" ≠ MsgTypeTransactionSuccess) :
    rest.processReply (some p) gw now (some (.obj msg)) =
      ⟨.wrote r
        (mapSet (mapSet (mapSet (mapSet msg
          "errorCode" (.str resubmissionPreventedCode))
          "errorMessage" (.str resubmissionPreventedMessage))
          "receivedAt" (.num now)) "_id" (.str r)) true, false⟩ ∧
    mapGet (mapSet (mapSet (mapSet (mapSet msg
        "errorCode" (.str resubmissionPreventedCode))
        "errorMessage" (.str resubmissionPreventedMessage))
        "receivedAt" (.num now)) "_id" (.str r)) "errorCode" =
      some (.str resubmissionPreventedCode) ∧
    mapGet (mapSet (mapSet (mapSet (mapSet msg
        "errorCode" (.str resubmissionPreventedCode))
        "errorMessage" (.str resubmissionPreventedMessage))
        "receivedAt" (.num now)) "_id" (.str r)) "errorMessage" =
      some (.str resubmissionPreventedMessage) ∧
    mapGet (mapSet (mapSet (mapSet (mapSet msg
        "errorCode" (.str resubmissionPreventedCode))
        "errorMessage" (.str resubmissionPreventedMessage))
        "receivedAt" (.num now)) "_id" (.str r)) "transactionHash" =
      mapGet msg "transactionHash" := by
  have hpd : (gw && decide (MsgTypeTransactionRedeliveryPrevented =
      MsgTypeTransactionSuccess) && decide (GetMapString msg "contractAddress" ≠ ""))
      = false := by
    have : decide (MsgTypeTransactionRedeliveryPrevented =
        MsgTypeTransactionSuccess) = false := by decide
    simp [this]
  refine ⟨?_, ?_, ?_, ?_⟩
  · simp only [rest.processReply]
    rw [hhdr]
    simp only [hrid, htype]
    rw [if_neg hr, if_pos trivial]
    have hfinish : rest.processReplyPersist true now r
        (mapSet (mapSet msg "errorCode" (JValue.str resubmissionPreventedCode))
          "errorMessage" (JValue.str resubmissionPreventedMessage))
        (gw && decide (MsgTypeTransactionRedeliveryPrevented =
          MsgTypeTransactionSuccess) &&
          decide (GetMapString msg "contractAddress" ≠ "")) =
        ⟨.wrote r
          (mapSet (mapSet (mapSet (mapSet msg
            "errorCode" (.str resubmissionPreventedCode))
            "errorMessage" (.str resubmissionPreventedMessage))
            "receivedAt" (.num now)) "_id" (.str r)) true, false⟩ := by
      simp only [rest.processReplyPersist]
      rw [if_pos ⟨hr, trivial⟩, hpd]
    cases hpr : p r with
    | error e => exact hfinish
    | ok o =>
      cases o with
      | none => exact hfinish
      | some m =>
        obtain ⟨h1, h2⟩ := hnt m hpr
        simpa [h1, h2] using hfinish
  · rw [mapGet_mapSet_ne _ _ _ _ (by decide), mapGet_mapSet_ne _ _ _ _ (by decide),
      mapGet_mapSet_ne _ _ _ _ (by decide), mapGet_mapSet_self]
  · rw [mapGet_mapSet_ne _ _ _ _ (by decide), mapGet_mapSet_ne _ _ _ _ (by decide),
      mapGet_mapSet_self]
  · rw [mapGet_mapSet_ne _ _ _ _ (by decide), mapGet_mapSet_ne _ _ _ _ (by decide),
      mapGet_mapSet_ne _ _ _ _ (by decide), mapGet_mapSet_ne _ _ _ _ (by decide)]

/-- C4 witness: a concrete redelivery-prevented reply for pending `req-3`
(no stored receipt) is rewritten into the synthetic error and written with
overwrite. -/
theorem processReply_redelivery_pending_rewrite_witness :
    rest.processReply (some fun _ => .ok none) true 1700000000000
      (some (.obj [("headers", .obj [("requestId", JValue.str "req-3"),
        ("type", JValue.str "transaction-redelivery-prevented")]),
        ("transactionHash", JValue.str "0xdead")])) =
      ⟨.wrote "req-3"
        (mapSet (mapSet (mapSet (mapSet
          [("headers", JValue.obj [("requestId", JValue.str "req-3"),
            ("type", JValue.str "transaction-redelivery-prevented")]),
            ("transactionHash", JValue.str "0xdead")]
          "errorCode" (.str resubmissionPreventedCode))
          "errorMessage" (.str resubmissionPreventedMessage))
          "receivedAt" (.num 1700000000000)) "_id" (.str "req-3")) true,
        false⟩ :=
  (processReply_redelivery_pending_rewrite (fun _ => .ok none) true
    1700000000000
    [("headers", JValue.obj [("requestId", JValue.str "req-3"),
      ("type", JValue.str "transaction-redelivery-prevented")]),
      ("transactionHash", JValue.str "0xdead")]
    [("requestId", JValue.str "req-3"),
      ("type", JValue.str "transaction-redelivery-prevented")]
    "req-3" rfl rfl (by decide) rfl
    (fun m h => Option.noConfusion (Except.ok.inj h))).1

/-- C8 (bug evidence): for the input `{"headers":42}` the kldwebhooks
`processReply` panics — the guard `reflect.TypeOf(headers).Kind() ==
reflect.Map` inspects the nil local `headers` variable instead of `iHeaders`,
so the unchecked type assertion runs and fails — contradicting the function's
own doc comment ("contains all errors").  The rest-era `processReply` drops
the same input safely. -/
theorem kldProcessReply_headers_assertion_panics :
    kldwebhooks.processReply true (some (.obj [("headers", .num 42)])) =
      .panicked ∧
    rest.processReply (some fun _ => .ok none) false 0
      (some (.obj [("headers", .num 42)])) = ⟨.droppedNoHeaders, false⟩ :=
  ⟨rfl, rfl⟩

/-- C5 counterexample: with a nil persistence tier, `getReply` does not
respond 405 — it dereferences the nil interface (panics); the claimed
`disabled` branch does not exist in this handler. -/
theorem getReply_nil_persistence_panics :
    rest.getReply true none "req-1" = .panicked := rfl

/-- C5 (amended): `getReply` responds 404 when the persistence tier has no
receipt, 500 when it errors, and 200 with the receipt otherwise; with a nil
persistence it panics (no 405 guard).  Only `getReplies` responds 405 when the
store is disabled. -/
theorem getReply_status_mapping (p : GetReceiptFn) (id : String)
    (conf : rest.ReceiptStoreConf) (parseRFC : String → Option Int)
    (form : Form) :
    (p id = .ok none → rest.getReply true (some p) id = .notFound) ∧
    (p id = .error () → rest.getReply true (some p) id = .serverError) ∧
    (∀ m, p id = .ok (some m) → rest.getReply true (some p) id = .okDoc m) ∧
    rest.getReply true none id = .panicked ∧
    rest.getReplies true conf none parseRFC form = ⟨.disabled, none⟩ := by
  refine ⟨?_, ?_, ?_, rfl, rfl⟩
  · intro h; simp [rest.getReply, h]
  · intro h; simp [rest.getReply, h]
  · intro m h; simp [rest.getReply, h]

/-- C5 witness: the amended mapping at concrete inputs. -/
theorem getReply_status_mapping_witness :
    rest.getReply true (some fun _ => .ok none) "a" = .notFound ∧
    rest.getReply true (some fun _ => .error ()) "a" = .serverError ∧
    rest.getReply true (some fun _ => .ok (some [])) "a" = .okDoc [] ∧
    rest.getReply true none "a" = .panicked ∧
    rest.getReplies true ⟨250, 10, 500, 120000⟩ none (fun _ => none) [] =
      ⟨.disabled, none⟩ := by
  obtain ⟨h1, h2, h3, h4, h5⟩ :=
    getReply_status_mapping (fun _ => .ok (some [])) "a"
      ⟨250, 10, 500, 120000⟩ (fun _ => none) []
  exact ⟨getReply_status_mapping (fun _ => .ok none) "a"
      ⟨250, 10, 500, 120000⟩ (fun _ => none) [] |>.1 rfl,
    getReply_status_mapping (fun _ => .error ()) "a"
      ⟨250, 10, 500, 120000⟩ (fun _ => none) [] |>.2.1 rfl,
    h3 [] rfl, h4, h5⟩

/-- C6 counterexample: a limit of 11 against `QueryLimit = 10` is rejected
with 400 and the persistence query is never executed — there is no clamping
to `QueryLimit`. -/
theorem getReplies_oversized_limit_not_clamped :
    rest.getReplies true ⟨250, 10, 500, 120000⟩
      (some fun skip limit ids _ _ _ _ =>
        kldrest.memGetReceipts [] skip limit ids)
      (fun _ => none) [("limit", "11")] =
      ⟨.badRequest "maxLimit", none⟩ := rfl

/-- C6 (amended): whenever the `limit` query parameter parses to an integer
greater than `QueryLimit`, the request is rejected with 400 and
`GetReceipts` is not called; the limit is not clamped.  This covers every
request shape: with no `id` parameters, or with valid ids, the rejection is
the max-limit 400; with invalid ids the request is rejected 400 even
earlier. -/
theorem getReplies_oversized_limit_rejected (conf : rest.ReceiptStoreConf)
    (pers : rest.GetReceiptsFn) (parseRFC : String → Option Int)
    (form : Form) (l : Int)
    (hparse : goParseInt (formValue form "limit") 32 = (l, true))
    (hgt : l > conf.QueryLimit) :
    ∃ w, rest.getReplies true conf (some pers) parseRFC form =
        ⟨.badRequest w, none⟩ ∧
      ((formAll form "id" = none ∨
        ∃ ids, formAll form "id" = some ids ∧
          ids.all rest.uuidCharsVerifier = true) → w = "maxLimit") := by
  have hne : formValue form "limit" ≠ "" := by
    intro hh
    rw [hh] at hparse
    simp [goParseInt] at hparse
  cases hids : formAll form "id" with
  | none =>
    refine ⟨"maxLimit", ?_, fun _ => rfl⟩
    simp [rest.getReplies, hids, hparse, if_neg hne, if_pos hgt]
  | some ids =>
    by_cases hval : ids.all rest.uuidCharsVerifier = true
    · refine ⟨"maxLimit", ?_, fun _ => rfl⟩
      simp [rest.getReplies, hids, hval, hparse, if_neg hne, if_pos hgt]
    · have hf : ids.all rest.uuidCharsVerifier = false :=
        Bool.eq_false_iff.mpr hval
      refine ⟨"invalidRequestID", ?_, fun hh => ?_⟩
      · simp [rest.getReplies, hids, hf]
      · rcases hh with hh | ⟨ids2, hh, hall⟩
        · exact Option.noConfusion hh
        · rw [← Option.some.inj hh] at hall
          exact absurd hall hval

/-- C6 witness: concrete rejection at `QueryLimit = 5`, limit 7, with a
valid `id` parameter supplied — still the max-limit 400 with no query. -/
theorem getReplies_oversized_limit_rejected_witness :
    ∃ w, rest.getReplies true ⟨250, 5, 500, 120000⟩
        (some fun _ _ _ _ _ _ _ => GetReceiptsResult.ok [])
        (fun _ => none) [("id", "abc"), ("limit", "7")] =
        ⟨.badRequest w, none⟩ ∧
      ((formAll [("id", "abc"), ("limit", "7")] "id" = none ∨
        ∃ ids, formAll [("id", "abc"), ("limit", "7")] "id" = some ids ∧
          ids.all rest.uuidCharsVerifier = true) → w = "maxLimit") :=
  getReplies_oversized_limit_rejected ⟨250, 5, 500, 120000⟩
    (fun _ _ _ _ _ _ _ => GetReceiptsResult.ok [])
    (fun _ => none) [("id", "abc"), ("limit", "7")] 7 rfl (by decide)

/-- A present form key always carries at least one value. -/
theorem formAll_some_ne_nil (form : Form) (k : String) (vs : List String)
    (h : formAll form k = some vs) : vs ≠ [] := by
  intro hnil
  subst hnil
  unfold formAll at h
  cases hm : (form.filter (fun p => p.1 = k)).map (fun p => p.2) with
  | nil => rw [hm] at h; exact Option.noConfusion h
  | cons a as => rw [hm] at h; exact List.noConfusion (Option.some.inj h)

/-- C7 counterexample: a supplied limit of 0 (which is ≤ `QueryLimit = 10`)
is not honoured as a bound — the handler silently falls back to the default
limit 10 and returns 1 result, exceeding the supplied limit. -/
theorem getReplies_zero_limit_overshoots :
    (rest.getReplies true ⟨250, 10, 500, 120000⟩
        (some fun skip limit ids _ _ _ _ =>
          kldrest.memGetReceipts [[("_id", JValue.str "r1")]] skip limit ids)
        (fun _ => none) [("limit", "0")]).response =
      .okList [[("_id", JValue.str "r1")]] ∧
    (0 : Int) ≤ 10 ∧ ¬((1 : Int) ≤ 0) :=
  ⟨rfl, by decide⟩

/-- C7 (amended): if the supplied limit parses to a positive integer at most
`QueryLimit`, any 200 response of `GET /replies` against the in-memory store
carries at most that many results; if it parses to an integer greater than
`QueryLimit`, the request is rejected with 400. -/
theorem getReplies_limit_bound (conf : rest.ReceiptStoreConf)
    (receipts : List JMap) (pers : rest.GetReceiptsFn)
    (parseRFC : String → Option Int) (form : Form) (l : Int) :
    (goParseInt (formValue form "limit") 32 = (l, true) → 0 < l →
      l ≤ conf.QueryLimit →
      ∀ rs, (rest.getReplies true conf
          (some fun skip limit ids _ _ _ _ =>
            kldrest.memGetReceipts receipts skip limit ids)
          parseRFC form).response = .okList rs →
        (rs.length : Int) ≤ l) ∧
    (goParseInt (formValue form "limit") 32 = (l, true) →
      conf.QueryLimit < l →
      ∃ w, (rest.getReplies true conf (some pers) parseRFC form).response =
        .badRequest w) := by
  constructor
  · intro hparse hpos hle rs hres
    have hne : formValue form "limit" ≠ "" := by
      intro hh; rw [hh] at hparse; simp [goParseInt] at hparse
    have hql : ¬(l > conf.QueryLimit) := not_lt.mpr hle
    have hfin : ∀ sk : Int,
        kldrest.takeInt l (kldrest.dropInt sk receipts) = rs →
        (rs.length : Int) ≤ l := by
      intro sk hrs
      rw [← hrs]
      simp only [kldrest.takeInt, kldrest.dropInt, List.length_take]
      omega
    simp only [rest.getReplies, if_neg hne, hparse, if_neg hql, if_pos hpos,
      eq_self_iff_true, not_true, if_false] at hres
    rcases hids : formAll form "id" with _ | ids
    · simp only [hids] at hres
      split at hres
      · exact absurd hres (by simp)
      · have hll : ¬(l < 0) := by omega
        simp only [kldrest.memGetReceipts, List.length_nil, gt_iff_lt,
          lt_self_iff_false, if_false, if_neg hll] at hres
        split at hres
        · exact hfin _ (by simpa using hres)
        · split at hres
          · exact absurd hres (by simp)
          · exact hfin _ (by simpa using hres)
    · by_cases hval : ids.all rest.uuidCharsVerifier = true
      · simp only [hids, if_pos hval] at hres
        split at hres
        · exact absurd hres (by simp)
        · have hlen : ids.length > 0 :=
            List.length_pos.mpr (formAll_some_ne_nil form "id" ids hids)
          simp only [kldrest.memGetReceipts, if_pos hlen] at hres
          split at hres
          all_goals try split at hres
          all_goals exact rest.RepliesResponse.noConfusion hres
      · simp only [hids, if_neg hval] at hres
        exact absurd hres (by simp)
  · intro hparse hgt
    have hne : formValue form "limit" ≠ "" := by
      intro hh; rw [hh] at hparse; simp [goParseInt] at hparse
    cases hids : formAll form "id" with
    | none =>
      exact ⟨"maxLimit", by
        simp [rest.getReplies, hids, hparse, if_neg hne, if_pos hgt]⟩
    | some ids =>
      by_cases hval : ids.all rest.uuidCharsVerifier = true
      · exact ⟨"maxLimit", by
          simp [rest.getReplies, hids, hval, hparse, if_neg hne, if_pos hgt]⟩
      · have hf : ids.all rest.uuidCharsVerifier = false :=
          Bool.eq_false_iff.mpr hval
        exact ⟨"invalidRequestID", by
          simp [rest.getReplies, hids, hf]⟩

/-- C7 witness: with `QueryLimit = 10` and two stored receipts, a supplied
limit of 1 yields at most one result, and a supplied limit of 11 is a 400. -/
theorem getReplies_limit_bound_witness :
    (∀ rs, (rest.getReplies true ⟨250, 10, 500, 120000⟩
        (some fun skip limit ids _ _ _ _ =>
          kldrest.memGetReceipts
            [[("_id", JValue.str "a")], [("_id", JValue.str "b")]]
            skip limit ids)
        (fun _ => none) [("limit", "1")]).response = .okList rs →
      (rs.length : Int) ≤ 1) ∧
    (∃ w, (rest.getReplies true ⟨250, 10, 500, 120000⟩
        (some fun _ _ _ _ _ _ _ => GetReceiptsResult.ok [])
        (fun _ => none) [("limit", "11")]).response = .badRequest w) :=
  ⟨(getReplies_limit_bound ⟨250, 10, 500, 120000⟩
      [[("_id", JValue.str "a")], [("_id", JValue.str "b")]]
      (fun _ _ _ _ _ _ _ => GetReceiptsResult.ok [])
      (fun _ => none) [("limit", "1")] 1).1 rfl (by decide) (by decide),
    (getReplies_limit_bound ⟨250, 10, 500, 120000⟩ []
      (fun _ _ _ _ _ _ _ => GetReceiptsResult.ok [])
      (fun _ => none) [("limit", "11")] 11).2 rfl (by decide)⟩

/-- C10: whenever `writeReceipt` succeeds and a smart-contract gateway is
configured, `SendReply` is invoked with the written receipt — for any
`overwriteAndRetry` flag, hence also on the ingress `writeAccepted` path
(overwrite = false), where the written receipt is the pending one. -/
theorem writeReceipt_sendReply_on_success (conf : rest.ReceiptStoreConf)
    (add : Nat → Option String) (rc msg : JMap) (ow : Bool) (now : Int)
    (msgID msgAck : String) (res : rest.WriteReceiptResult)
    (h : rest.writeReceipt conf true add rc ow = some res)
    (hok : res.res = .ok) (hadd : add 1 = none) :
    res.sentReply = some rc ∧
    rest.writeAccepted conf true add now msgID msgAck msg =
      some ⟨.ok, [],
        some (mapSet (mapSet (mapSet (mapSet msg "receivedAt" (.num now))
          "pending" (.bool true)) "msgAck" (.str msgAck)) "_id"
          (.str msgID))⟩ ∧
    mapGet (mapSet (mapSet (mapSet (mapSet msg "receivedAt" (.num now))
      "pending" (.bool true)) "msgAck" (.str msgAck)) "_id" (.str msgID))
      "pending" = some (.bool true) := by
  refine ⟨?_, ?_, ?_⟩
  · simp only [rest.writeReceipt] at h
    cases hl : rest.writeReceiptLoop add ow
        (rest.msToNs conf.RetryTimeoutMS)
        (rest.writeReceiptFuel (rest.msToNs conf.RetryTimeoutMS)) 0
        (rest.msToNs conf.RetryInitialDelayMS) 0 with
    | none => rw [hl] at h; exact Option.noConfusion h
    | some out =>
      rw [hl] at h
      cases out with
      | mk o sl =>
        simp only [Option.some.injEq] at h
        subst h
        have ho : o = .ok := hok
        subst ho
        simp
  · have hfuel : rest.writeReceiptFuel (rest.msToNs conf.RetryTimeoutMS) =
        rest.msToNs conf.RetryTimeoutMS + 2 + 1 := rfl
    simp only [rest.writeAccepted, rest.writeReceipt, hfuel]
    simp [rest.writeReceiptLoop, hadd]
  · rw [mapGet_mapSet_ne _ _ _ _ (by decide),
      mapGet_mapSet_ne _ _ _ _ (by decide), mapGet_mapSet_self]

/-- C10 witness: a successful first-attempt write with the gateway configured
invokes `SendReply` with the written receipt, also on the accepted path. -/
theorem writeReceipt_sendReply_on_success_witness :
    (⟨rest.WriteRes.ok, [], some [("k", JValue.str "v")]⟩ :
      rest.WriteReceiptResult).sentReply = some [("k", JValue.str "v")] ∧
    rest.writeAccepted ⟨0, 0, 0, 0⟩ true (fun _ => none) 5 "id1" "ack1" [] =
      some ⟨.ok, [],
        some (mapSet (mapSet (mapSet (mapSet [] "receivedAt" (.num 5))
          "pending" (.bool true)) "msgAck" (.str "ack1")) "_id"
          (.str "id1"))⟩ ∧
    mapGet (mapSet (mapSet (mapSet (mapSet [] "receivedAt" (.num 5))
      "pending" (.bool true)) "msgAck" (.str "ack1")) "_id" (.str "id1"))
      "pending" = some (.bool true) :=
  writeReceipt_sendReply_on_success ⟨0, 0, 0, 0⟩ (fun _ => none)
    [("k", JValue.str "v")] [] false 5 "id1" "ack1"
    ⟨.ok, [], some [("k", JValue.str "v")]⟩ rfl rfl rfl

section RetryLoopLemmas

/-- Multiplying by 1.1 (with truncation) never decreases a delay. -/
theorem le_mul11 (d : Nat) : d ≤ rest.mul11 d := by
  unfold rest.mul11
  rw [Nat.le_div_iff_mul_le (by norm_num)]
  omega

/-- With a positive delay, the fuel `timeout + 2` (plus one for the first,
sleepless iteration) never runs out: every later iteration sleeps at least
1ns and the loop aborts once the slept time exceeds the deadline. -/
theorem writeReceiptLoop_total (add : Nat → Option String) (t : Nat) :
    ∀ fuel a delay slept, 1 ≤ delay → 1 ≤ a → slept ≤ t →
      t + 2 ≤ fuel + slept →
      (rest.writeReceiptLoop add true t fuel a delay slept).isSome := by
  intro fuel
  induction fuel with
  | zero => intro a delay slept h1 ha hs hf; omega
  | succ fuel ih =>
    intro a delay slept h1 ha hs hf
    simp only [rest.writeReceiptLoop, if_pos (show 0 < a from ha)]
    cases hadd : add (a + 1) with
    | none => rfl
    | some e =>
      simp only [Bool.not_true, Bool.false_eq_true, if_false]
      by_cases hto : t < slept + delay
      · rw [if_pos hto]
        rfl
      · rw [if_neg hto]
        have hrec := ih (a + 1) (rest.mul11 delay) (slept + delay)
          (le_trans h1 (le_mul11 delay)) (by omega) (by omega) (by omega)
        obtain ⟨out, hout⟩ := Option.isSome_iff_exists.mp hrec
        rw [hout]
        cases out with
        | mk r s => rfl

end RetryLoopLemmas

/-- Characterization of the retry loop on the overwrite path, for calls past
the first attempt (`1 ≤ a`): it never returns the `err` result, the sleeps
form the 1.1-backoff sequence seeded by the current delay, a success result
marks the first successful attempt, and a panic result means every attempt
failed and the slept time exceeded the deadline. -/
theorem writeReceiptLoop_spec (add : Nat → Option String) (t : Nat) :
    ∀ fuel a delay slept res sleeps, 1 ≤ a →
      rest.writeReceiptLoop add true t fuel a delay slept =
        some (res, sleeps) →
      (∀ e, res ≠ .err e) ∧
      sleeps = (List.range sleeps.length).map
        (fun i => rest.mul11^[i] delay) ∧
      (res = .ok → add (a + sleeps.length) = none ∧
        ∀ k, a < k → k < a + sleeps.length → add k ≠ none) ∧
      (res = .panicked →
        (∀ k, a < k → k ≤ a + sleeps.length → add k ≠ none) ∧
        t < slept + sleeps.sum) := by
  intro fuel
  induction fuel with
  | zero =>
    intro a delay slept res sleeps ha h
    exact absurd h (by simp [rest.writeReceiptLoop])
  | succ fuel ih =>
    intro a delay slept res sleeps ha h
    simp only [rest.writeReceiptLoop, if_pos (show 0 < a from ha)] at h
    cases hadd : add (a + 1) with
    | none =>
      rw [hadd] at h
      simp only [Option.some.injEq, Prod.mk.injEq] at h
      obtain ⟨h1, h2⟩ := h
      subst h1
      subst h2
      refine ⟨fun e he => rest.WriteRes.noConfusion he, by simp, ?_, ?_⟩
      · intro _
        exact ⟨by simpa using hadd, fun k hk1 hk2 => by
          simp only [List.length_cons, List.length_nil] at hk2; omega⟩
      · intro hp
        exact absurd hp (by simp)
    | some e =>
      rw [hadd] at h
      simp only [Bool.not_true, Bool.false_eq_true, if_false] at h
      by_cases hto : t < slept + delay
      · rw [if_pos hto] at h
        simp only [Option.some.injEq, Prod.mk.injEq] at h
        obtain ⟨h1, h2⟩ := h
        subst h1
        subst h2
        refine ⟨fun e he => rest.WriteRes.noConfusion he, by simp, ?_, ?_⟩
        · intro hp
          exact absurd hp (by simp)
        · intro _
          refine ⟨fun k hk1 hk2 => ?_, by simpa using hto⟩
          have hk : k = a + 1 := by
            simp only [List.length_cons, List.length_nil] at hk2; omega
          subst hk
          simp [hadd]
      · rw [if_neg hto] at h
        cases hrec : rest.writeReceiptLoop add true t fuel (a + 1)
            (rest.mul11 delay) (slept + delay) with
        | none => rw [hrec] at h; exact Option.noConfusion h
        | some out =>
          rw [hrec] at h
          cases out with
          | mk res' more =>
            simp only [Option.some.injEq, Prod.mk.injEq,
              List.singleton_append] at h
            obtain ⟨h1, h2⟩ := h
            subst h1
            subst h2
            obtain ⟨iherr, ihmap, ihok, ihpanic⟩ :=
              ih (a + 1) (rest.mul11 delay) (slept + delay) res' more
                (by omega) hrec
            refine ⟨iherr, ?_, ?_, ?_⟩
            · have hmap2 : delay :: more =
                  (List.range (more.length + 1)).map
                    (fun i => rest.mul11^[i] delay) := by
                rw [List.range_succ_eq_map, List.map_cons, List.map_map]
                refine congrArg₂ List.cons (by simp) ?_
                conv_lhs => rw [ihmap]
                apply List.map_congr_left
                intro i _
                simp [Function.iterate_succ_apply]
              simpa using hmap2
            · intro hok2
              obtain ⟨hsucc, hfail⟩ := ihok hok2
              constructor
              · have harith : a + (delay :: more).length =
                    a + 1 + more.length := by
                  simp only [List.length_cons]; omega
                rw [harith]
                exact hsucc
              · intro k hk1 hk2
                simp only [List.length_cons] at hk2
                by_cases hk : k = a + 1
                · subst hk; simp [hadd]
                · exact hfail k (by omega) (by omega)
            · intro hp
              obtain ⟨hfail, hsum⟩ := ihpanic hp
              constructor
              · intro k hk1 hk2
                simp only [List.length_cons] at hk2
                by_cases hk : k = a + 1
                · subst hk; simp [hadd]
                · exact hfail k (by omega) (by omega)
              · simp only [List.sum_cons]
                omega

/-- C3: `writeReceipt` retry policy.  The conf defaults are 120s total
deadline and 500ms initial delay; with `overwriteAndRetry = false` a first
failed `AddReceipt` attempt returns the error immediately with no sleeps;
with `overwriteAndRetry = true` the call always ends in success or a panic
(never an error), sleeping the 1.1-multiplied backoff sequence between
attempts: on success the last attempt is the first successful one, and on
panic every attempt failed and the total sleep time exceeded the deadline. -/
theorem writeReceipt_retry_policy (conf0 : rest.ReceiptStoreConf)
    (add : Nat → Option String) (rc : JMap) (gw : Bool) :
    (rest.newReceiptStoreConf conf0).RetryTimeoutMS =
      (if conf0.RetryTimeoutMS ≤ 0 then 120 * 1000
       else conf0.RetryTimeoutMS) ∧
    (rest.newReceiptStoreConf conf0).RetryInitialDelayMS =
      (if conf0.RetryInitialDelayMS ≤ 0 then 500
       else conf0.RetryInitialDelayMS) ∧
    (∀ e, add 1 = some e →
      rest.writeReceipt (rest.newReceiptStoreConf conf0) gw add rc false =
        some ⟨.err e, [], none⟩) ∧
    (∃ res sleeps sent,
      rest.writeReceipt (rest.newReceiptStoreConf conf0) gw add rc true =
        some ⟨res, sleeps, sent⟩ ∧
      (res = .ok ∨ res = .panicked) ∧
      sleeps = (List.range sleeps.length).map
        (rest.backoffSeq (rest.newReceiptStoreConf conf0)) ∧
      (res = .ok → add (sleeps.length + 1) = none ∧
        ∀ k, 1 ≤ k → k ≤ sleeps.length → add k ≠ none) ∧
      (res = .panicked →
        (∀ k, 1 ≤ k → k ≤ sleeps.length + 1 → add k ≠ none) ∧
        rest.msToNs (rest.newReceiptStoreConf conf0).RetryTimeoutMS <
          sleeps.sum)) := by
  have hfuel : ∀ x : Nat, rest.writeReceiptFuel x = x + 2 + 1 := fun _ => rfl
  refine ⟨rfl, rfl, ?_, ?_⟩
  · intro e hadd1
    simp only [rest.writeReceipt, hfuel]
    simp [rest.writeReceiptLoop, hadd1]
  · cases hadd1 : add 1 with
    | none =>
      refine ⟨.ok, [], if gw = true then some rc else none, ?_, Or.inl rfl,
        by simp, ?_, ?_⟩
      · simp only [rest.writeReceipt, hfuel]
        simp [rest.writeReceiptLoop, hadd1]
      · intro _
        exact ⟨by simpa using hadd1, fun k hk1 hk2 => by
          simp at hk2; omega⟩
      · intro hp
        exact absurd hp (by simp)
    | some e =>
      have hd1 : 1 ≤ rest.msToNs
          (rest.newReceiptStoreConf conf0).RetryInitialDelayMS := by
        unfold rest.msToNs rest.newReceiptStoreConf
        by_cases h0 : conf0.RetryInitialDelayMS ≤ 0
        · simp [h0, rest.defaultRetryInitialDelay]
        · simp only [h0, if_false]
          have h1 : 1 ≤ conf0.RetryInitialDelayMS.toNat := by omega
          calc 1 = 1 * 1 := rfl
            _ ≤ conf0.RetryInitialDelayMS.toNat * 1000000 :=
              Nat.mul_le_mul h1 (by norm_num)
      have htot := writeReceiptLoop_total add
        (rest.msToNs (rest.newReceiptStoreConf conf0).RetryTimeoutMS)
        (rest.msToNs (rest.newReceiptStoreConf conf0).RetryTimeoutMS + 2) 1
        (rest.msToNs (rest.newReceiptStoreConf conf0).RetryInitialDelayMS) 0
        hd1 (le_refl 1) (Nat.zero_le _) (by omega)
      obtain ⟨out, hloop⟩ := Option.isSome_iff_exists.mp htot
      obtain ⟨res, more⟩ := out
      obtain ⟨herr, hmap, hok, hpanic⟩ := writeReceiptLoop_spec add
        (rest.msToNs (rest.newReceiptStoreConf conf0).RetryTimeoutMS)
        (rest.msToNs (rest.newReceiptStoreConf conf0).RetryTimeoutMS + 2) 1
        (rest.msToNs (rest.newReceiptStoreConf conf0).RetryInitialDelayMS) 0
        res more (le_refl 1) hloop
      refine ⟨res, more, if res = .ok ∧ gw = true then some rc else none,
          ?_, ?_, ?_, ?_, ?_⟩
      · simp only [rest.writeReceipt, hfuel]
        rw [rest.writeReceiptLoop]
        simp only [lt_self_iff_false, if_false, hadd1, Bool.not_true,
          Bool.false_eq_true, Nat.not_lt_zero, hloop, List.nil_append]
      · cases res with
        | ok => exact Or.inl rfl
        | panicked => exact Or.inr rfl
        | err e2 => exact absurd rfl (herr e2)
      · unfold rest.backoffSeq
        exact hmap
      · intro hok2
        obtain ⟨hsucc, hfail⟩ := hok hok2
        refine ⟨by rw [Nat.add_comm]; exact hsucc, ?_⟩
        intro k hk1 hk2
        by_cases hk : k = 1
        · subst hk; simp [hadd1]
        · exact hfail k (by omega) (by omega)
      · intro hp
        obtain ⟨hfail, hsum⟩ := hpanic hp
        refine ⟨?_, by simpa using hsum⟩
        intro k hk1 hk2
        by_cases hk : k = 1
        · subst hk; simp [hadd1]
        · exact hfail k (by omega) (by omega)

/-- C3 witness: with an all-defaults conf and a first attempt that fails,
`overwrite=false` returns the error immediately with no sleeps. -/
theorem writeReceipt_retry_policy_witness :
    rest.writeReceipt (rest.newReceiptStoreConf ⟨0, 0, 0, 0⟩) false
      (fun n => if n = 1 then some "pop" else none) [] false =
      some ⟨.err "pop", [], none⟩ :=
  ((writeReceipt_retry_policy ⟨0, 0, 0, 0⟩
    (fun n => if n = 1 then some "pop" else none) [] false).2.2.1 "pop" rfl)
